import Mathlib

/-!
Verification of the per-frame physics core of a small Bevy particle
simulation (`src/main.rs`).

Modelling conventions:

* `f32` values are modelled as rationals (`ℚ`), so every arithmetic step of
  the source is mirrored exactly, without rounding.  The single genuinely
  transcendental `f32` operation the source uses is the square root inside
  `Vec3::length` / `Vec3::distance`.  An exact rational square root does not
  exist, so every definition that needs it takes the square-root routine as
  an explicit parameter `sqrt : ℚ → ℚ`; the theorems below hold for every
  such routine (or under the stated interface property `SqrtThreshold10`,
  which the IEEE-754 `f32` square root satisfies: it is monotone and exact
  on `100 ↦ 10`).
* A Bevy `Query` iteration is modelled as a `List` of the queried component
  bundles, in iteration order.  `iter_combinations_mut::<2>` visits the
  unordered index pairs `(i, j)`, `i < j`, in lexicographic order; each
  fetch reads the current (possibly already mutated) components, which the
  embedding reproduces by folding a per-pair step over the index pairs.
* `query.iter().next().unwrap()` on the `Pause` query is modelled by
  matching on the head of a `List Bool` of all `Pause` components; a system
  returns `Option` where `none` models the `unwrap` panic.
* Entity ids are modelled as `ℕ` (spawn order).
-/

namespace BevyFun

/-- Bevy `Vec3`, componentwise rational. -/
abbrev Vec3 : Type := ℚ × ℚ × ℚ

/-- x component of a `Vec3`. -/
def vx (v : Vec3) : ℚ := v.1

/-- y component of a `Vec3`. -/
def vy (v : Vec3) : ℚ := v.2.1

/-- z component of a `Vec3`. -/
def vz (v : Vec3) : ℚ := v.2.2

/-- glam `Vec3 * f32`: componentwise scaling. -/
def mulScalar (v : Vec3) (c : ℚ) : Vec3 := (vx v * c, vy v * c, vz v * c)

/-- glam `Vec3::length_squared`: the dot product of the vector with itself. -/
def lengthSq (v : Vec3) : ℚ := vx v * vx v + vy v * vy v + vz v * vz v

/-- glam `Vec3::length`: square root of `length_squared`, with the `f32`
square-root routine passed explicitly. -/
def length (sqrt : ℚ → ℚ) (v : Vec3) : ℚ := sqrt (lengthSq v)

/-- glam `Vec3::normalize`: the vector scaled by the reciprocal of its
length (no zero-length guard, exactly as in the source). -/
def normalize (sqrt : ℚ → ℚ) (v : Vec3) : Vec3 := mulScalar v (length sqrt v)⁻¹

/-- glam `Vec3::distance`: length of the componentwise difference. -/
def dist (sqrt : ℚ → ℚ) (a b : Vec3) : ℚ := length sqrt (a - b)

/-- One simulated body as seen by the physics queries: the `Transform`
translation, the `Velocity` component and the `Mass` component. -/
structure Body where
  pos : Vec3
  vel : Vec3
  mass : ℕ
deriving DecidableEq

/-- Source `calculate_new_velocity`:
`direction = t2 - t1`; `distance = direction.length()`;
`force = 1.0 / distance.powi(2)`;
`force = direction.normalize() * force`; `force = force * m1 * m2`. -/
def calculate_new_velocity (sqrt : ℚ → ℚ) (m1 m2 : ℕ) (t1 t2 : Vec3) : Vec3 :=
  let m1f : ℚ := (m1 : ℚ)
  let m2f : ℚ := (m2 : ℚ)
  let direction := t2 - t1
  let distance := length sqrt direction
  let force := 1 / distance ^ 2
  let forceV := mulScalar (normalize sqrt direction) force
  mulScalar (mulScalar forceV m1f) m2f

/-- The index pairs `(i, j)`, `i < j < n`, in the lexicographic order in
which `iter_combinations_mut::<2>` yields them. -/
def pairs (n : ℕ) : List (ℕ × ℕ) :=
  (List.range n).flatMap fun i => (List.range' (i + 1) (n - (i + 1))).map fun j => (i, j)

/-- One `fetch_next` step of the gravity loop: read the two bodies at
indices `i` and `j`, compute the pairwise force and apply
`v1.0 += force; v2.0 -= force`. -/
def gravPair (sqrt : ℚ → ℚ) (bs : List Body) (i j : ℕ) : List Body :=
  match bs[i]?, bs[j]? with
  | some a, some b =>
      let force := calculate_new_velocity sqrt a.mass b.mass a.pos b.pos
      (bs.set i { a with vel := a.vel + force }).set j { b with vel := b.vel - force }
  | _, _ => bs

/-- Source system `update_from_gravity`: unwrap the first `Pause`, return
early when paused, otherwise run the pairwise gravity loop. -/
def update_from_gravity (sqrt : ℚ → ℚ) (pauses : List Bool) (bs : List Body) :
    Option (List Body) :=
  match pauses.head? with
  | none => none
  | some p =>
      if p then some bs
      else some ((pairs bs.length).foldl (fun s q => gravPair sqrt s q.1 q.2) bs)

/-- One `fetch_next` step of the collision loop: when the two translations
are strictly closer than `10.`, reverse both velocities. -/
def collidePair (sqrt : ℚ → ℚ) (bs : List Body) (i j : ℕ) : List Body :=
  match bs[i]?, bs[j]? with
  | some a, some b =>
      if dist sqrt a.pos b.pos < 10 then
        (bs.set i { a with vel := -a.vel }).set j { b with vel := -b.vel }
      else bs
  | _, _ => bs

/-- Source system `handle_collision`: unwrap the first `Pause`, return
early when paused, otherwise run the pairwise collision loop. -/
def handle_collision (sqrt : ℚ → ℚ) (pauses : List Bool) (bs : List Body) :
    Option (List Body) :=
  match pauses.head? with
  | none => none
  | some p =>
      if p then some bs
      else some ((pairs bs.length).foldl (fun s q => collidePair sqrt s q.1 q.2) bs)

/-- Source system `update_from_velocity`: unwrap the first `Pause`, return
early when paused, otherwise `transform.translation += velocity.0 * dt`
for every queried body, with the one frame-wide `dt`. -/
def update_from_velocity (pauses : List Bool) (dt : ℚ) (bs : List Body) :
    Option (List Body) :=
  match pauses.head? with
  | none => none
  | some p =>
      if p then some bs
      else some (bs.map fun b => { b with pos := b.pos + mulScalar b.vel dt })

/-- Source system `pause_game`: only on a just-pressed space edge, unwrap
the first `Pause` and flip it. -/
def pause_game (justPressed : Bool) (pauses : List Bool) : Option (List Bool) :=
  if justPressed then
    match pauses.head? with
    | none => none
    | some p => some (pauses.set 0 (!p))
  else some pauses

/-- Source system `maintain_sorted_entities_x`: stably sort the stored
`(Entity, f32)` pairs of the single `SortedEntitiesByX` by the stored
coordinate (`sort_by` with `partial_cmp` on the second component; the
comparison is total on `ℚ`, so the NaN panic branch has no counterpart).
Note that the system reads no `Transform`: it permutes the stored pairs. -/
def maintain_sorted_entities_x (xs : List (ℕ × ℚ)) : List (ℕ × ℚ) :=
  xs.mergeSort fun a b => decide (a.2 ≤ b.2)

/-- One spawned circle entity from `setup`: its `MaterialMesh2dBundle`
carries a `Transform` translation; the spawn inserts no `Velocity` and no
`Mass` component, which the two `Option` fields record. -/
structure SpawnedBody where
  id : ℕ
  translation : Vec3
  velocity : Option Vec3
  mass : Option ℕ
deriving DecidableEq

/-- The 20 circle entities spawned by `setup`: entity `i` at translation
`Vec3::new(100.0 * i as f32, 0., 0.)`, with no further components. -/
def setupBodies : List SpawnedBody :=
  (List.range 20).map fun i =>
    { id := i, translation := ((100 * (i : ℚ), 0, 0) : Vec3), velocity := none, mass := none }

/-- The initial `SortedEntitiesByX` payload built by `setup`. -/
def setupXItems : List (ℕ × ℚ) :=
  (List.range 20).map fun i => (i, 100 * (i : ℚ))

/-- The initial `SortedEntitiesByY` payload built by `setup`. -/
def setupYItems : List (ℕ × ℚ) :=
  (List.range 20).map fun i => (i, 0)

/-- The `Pause` components present after `setup`: exactly one, `false`. -/
def setupPauses : List Bool := [false]

/-- Interface property of the `f32` square root that the collision
threshold test relies on: `sqrt d < 10` exactly when `d < 100` (for
nonnegative `d`).  The IEEE-754 square root satisfies this: it is monotone,
`100` and `10` are exactly representable, and `sqrt 100 = 10` exactly. -/
def SqrtThreshold10 (sqrt : ℚ → ℚ) : Prop :=
  ∀ q : ℚ, 0 ≤ q → (sqrt q < 10 ↔ q < 100)

/-- Modelled from the spec (for the refinement part of the gravity claim):
`force_vector = normalize(direction) * (1 / distance^2) * mass(a) * mass(b)`
with `direction = position(b) - position(a)` and
`distance = magnitude(direction)`. -/
def gravitySpecForce (sqrt : ℚ → ℚ) (ma mb : ℕ) (pa pb : Vec3) : Vec3 :=
  mulScalar
    (mulScalar (mulScalar (normalize sqrt (pb - pa)) (1 / (length sqrt (pb - pa)) ^ 2)) (ma : ℚ))
    (mb : ℚ)

/-- Sum of all velocity vectors (the quantity the gravity loop actually
conserves). -/
def velSum (bs : List Body) : Vec3 := (bs.map Body.vel).sum

/-- Mass-weighted sum of velocities, the total momentum of the spec. -/
def momentum (bs : List Body) : Vec3 :=
  (bs.map fun b => mulScalar b.vel (b.mass : ℚ)).sum

lemma lengthSq_nonneg (v : Vec3) : 0 ≤ lengthSq v :=
  add_nonneg (add_nonneg (mul_self_nonneg _) (mul_self_nonneg _)) (mul_self_nonneg _)

lemma sum_set_of_lt {M : Type} [AddCommGroup M] (a : M) :
    ∀ (L : List M) (n : ℕ) (h : n < L.length), (L.set n a).sum = L.sum + a - L[n] := by
  intro L
  induction L with
  | nil => intro n h; simp at h
  | cons b t ih =>
    intro n h
    cases n with
    | zero =>
      simp only [List.set_cons_zero, List.sum_cons, List.getElem_cons_zero]
      abel
    | succ m =>
      have hm : m < t.length := by simpa using h
      simp only [List.set_cons_succ, List.sum_cons, List.getElem_cons_succ, ih m hm]
      abel

lemma velSum_gravPair (sqrt : ℚ → ℚ) (bs : List Body) {i j : ℕ} (hij : i ≠ j) :
    velSum (gravPair sqrt bs i j) = velSum bs := by
  unfold gravPair
  rcases hi : bs[i]? with _ | a <;> rcases hj : bs[j]? with _ | b <;> simp only []
  obtain ⟨hi2, hia⟩ := List.getElem?_eq_some.1 hi
  obtain ⟨hj2, hjb⟩ := List.getElem?_eq_some.1 hj
  unfold velSum
  rw [List.map_set, List.map_set]
  have hi3 : i < (bs.map Body.vel).length := by simpa using hi2
  have hj3 : j < ((bs.map Body.vel).set i
      ({ a with vel := a.vel + calculate_new_velocity sqrt a.mass b.mass a.pos b.pos }).vel).length := by
    simpa using hj2
  rw [sum_set_of_lt _ _ _ hj3, sum_set_of_lt _ _ _ hi3, List.getElem_set_ne hij,
      List.getElem_map, List.getElem_map, hia, hjb]
  abel_nf
  simp

lemma pairs_fst_lt_snd {n : ℕ} : ∀ p ∈ pairs n, p.1 < p.2 := by
  intro p hp
  unfold pairs at hp
  rw [List.mem_flatMap] at hp
  obtain ⟨i, _hi, hp2⟩ := hp
  rw [List.mem_map] at hp2
  obtain ⟨j, hj, rfl⟩ := hp2
  rw [List.mem_range'] at hj
  obtain ⟨t, _ht, rfl⟩ := hj
  simp only []
  omega

lemma velSum_foldl_gravPair (sqrt : ℚ → ℚ) :
    ∀ (ps : List (ℕ × ℕ)) (bs : List Body), (∀ p ∈ ps, p.1 ≠ p.2) →
      velSum (ps.foldl (fun s q => gravPair sqrt s q.1 q.2) bs) = velSum bs := by
  intro ps
  induction ps with
  | nil => intro bs _; rfl
  | cons p t ih =>
    intro bs hne
    rw [List.foldl_cons, ih _ (fun q hq => hne q (List.mem_cons_of_mem _ hq)),
        velSum_gravPair sqrt bs (hne p (List.mem_cons_self _ _))]

lemma maintain_perm (xs : List (ℕ × ℚ)) : (maintain_sorted_entities_x xs).Perm xs :=
  List.mergeSort_perm xs _

lemma maintain_pairwise (xs : List (ℕ × ℚ)) :
    List.Pairwise (fun a b : ℕ × ℚ => a.2 ≤ b.2) (maintain_sorted_entities_x xs) := by
  have htrans : ∀ a b c : ℕ × ℚ, (decide (a.2 ≤ b.2)) = true →
      (decide (b.2 ≤ c.2)) = true → (decide (a.2 ≤ c.2)) = true := by
    intro a b c hab hbc
    simp only [decide_eq_true_eq] at *
    exact le_trans hab hbc
  have htotal : ∀ a b : ℕ × ℚ, ((decide (a.2 ≤ b.2)) || (decide (b.2 ≤ a.2))) = true := by
    intro a b
    simpa using le_total a.2 b.2
  have h := @List.sorted_mergeSort (ℕ × ℚ) (fun a b => decide (a.2 ≤ b.2)) htrans htotal xs
  exact h.imp fun hab => by simpa using hab

/-- C1: while unpaused the Gravity System is the fold of the per-pair step
over all unordered index pairs `(i, j)`, `i < j`; each step computes the
force vector of the spec formula and applies `velocity(a) += force`,
`velocity(b) -= force`, leaving every other body untouched, so the two
velocity deltas of the pair sum to zero (equal and opposite). -/
theorem claim_c1_gravity_pairwise (sqrt : ℚ → ℚ) (rest : List Bool) (bs : List Body) :
    update_from_gravity sqrt (false :: rest) bs
        = some ((pairs bs.length).foldl (fun s q => gravPair sqrt s q.1 q.2) bs)
      ∧ ∀ (s : List Body) (i j : ℕ) (a b : Body),
          i ≠ j → s[i]? = some a → s[j]? = some b →
          calculate_new_velocity sqrt a.mass b.mass a.pos b.pos
              = gravitySpecForce sqrt a.mass b.mass a.pos b.pos
          ∧ (gravPair sqrt s i j)[i]?
              = some { a with vel := a.vel + gravitySpecForce sqrt a.mass b.mass a.pos b.pos }
          ∧ (gravPair sqrt s i j)[j]?
              = some { b with vel := b.vel - gravitySpecForce sqrt a.mass b.mass a.pos b.pos }
          ∧ (∀ k : ℕ, k ≠ i → k ≠ j → (gravPair sqrt s i j)[k]? = s[k]?)
          ∧ (a.vel + gravitySpecForce sqrt a.mass b.mass a.pos b.pos - a.vel)
              + (b.vel - gravitySpecForce sqrt a.mass b.mass a.pos b.pos - b.vel) = 0 := by
  refine ⟨rfl, ?_⟩
  intro s i j a b hij hi hj
  obtain ⟨hi2, hia⟩ := List.getElem?_eq_some.1 hi
  obtain ⟨hj2, hjb⟩ := List.getElem?_eq_some.1 hj
  refine ⟨rfl, ?_, ?_, ?_, by abel⟩
  · unfold gravPair
    rw [hi, hj]
    simp only [List.getElem?_set, if_neg (Ne.symm hij), if_pos rfl, if_pos hi2]
    rfl
  · unfold gravPair
    rw [hi, hj]
    have hj3 : j < (s.set i { a with
        vel := a.vel + calculate_new_velocity sqrt a.mass b.mass a.pos b.pos }).length := by
      simpa using hj2
    simp only [List.getElem?_set, if_pos rfl, if_pos hj3]
    rfl
  · intro k hki hkj
    unfold gravPair
    rw [hi, hj]
    simp only [List.getElem?_set, if_neg (Ne.symm hkj), if_neg (Ne.symm hki)]

/-- C1 witness: the gravity step on a concrete two-body world, with the
constant-one square-root routine. -/
theorem claim_c1_gravity_pairwise_witness :
    (0 : ℕ) ≠ 1
  ∧ ([⟨(0,0,0),(0,0,0),3⟩, ⟨(1,0,0),(0,0,0),4⟩] : List Body)[0]? = some ⟨(0,0,0),(0,0,0),3⟩
  ∧ ([⟨(0,0,0),(0,0,0),3⟩, ⟨(1,0,0),(0,0,0),4⟩] : List Body)[1]? = some ⟨(1,0,0),(0,0,0),4⟩
  ∧ (gravPair (fun _ => 1) [⟨(0,0,0),(0,0,0),3⟩, ⟨(1,0,0),(0,0,0),4⟩] 0 1)[0]?
      = some ⟨(0,0,0), (0,0,0) + gravitySpecForce (fun _ => 1) 3 4 (0,0,0) (1,0,0), 3⟩ :=
  ⟨by decide, rfl, rfl,
    ((claim_c1_gravity_pairwise (fun _ => 1) []
        [⟨(0,0,0),(0,0,0),3⟩, ⟨(1,0,0),(0,0,0),4⟩]).2
      [⟨(0,0,0),(0,0,0),3⟩, ⟨(1,0,0),(0,0,0),4⟩] 0 1 _ _ (by decide) rfl rfl).2.1⟩

/-- C3: with the pause flag true, the Gravity System, the Collision System
and the Integrator return every body unchanged, for any elapsed time and
body configuration. -/
theorem claim_c3_pause_noop (sqrt : ℚ → ℚ) (rest : List Bool) (dt : ℚ) (bs : List Body) :
    update_from_gravity sqrt (true :: rest) bs = some bs
  ∧ handle_collision sqrt (true :: rest) bs = some bs
  ∧ update_from_velocity (true :: rest) dt bs = some bs :=
  ⟨rfl, rfl, rfl⟩

/-- C7 counterexample: it is false that after the maintainer runs every
stored coordinate equals the corresponding body's current x position — the
maintainer never reads positions, so a stale stored coordinate survives. -/
theorem claim_c7_counterexample :
    ¬ (∀ (bs : List Body) (xs : List (ℕ × ℚ)),
        ∀ p ∈ maintain_sorted_entities_x xs, ∀ b, bs[p.1]? = some b → p.2 = vx b.pos) := by
  intro h
  have hm : maintain_sorted_entities_x [((0 : ℕ), (5 : ℚ))] = [(0, 5)] :=
    List.mergeSort_singleton _
  have h5 := h [⟨(7, 0, 0), (0, 0, 0), 10⟩] [(0, 5)] (0, 5)
    (by rw [hm]; exact List.mem_singleton_self _) ⟨(7, 0, 0), (0, 0, 0), 10⟩ rfl
  norm_num [vx] at h5

/-- C7 (amended): each run of the maintainer permutes the stored
`(handle, coordinate)` pairs into nondecreasing coordinate order; it reads
no body positions, so the stored pairs are exactly the ones it was given. -/
theorem claim_c7_sort_in_place (xs : List (ℕ × ℚ)) :
    (maintain_sorted_entities_x xs).Perm xs
  ∧ List.Pairwise (fun a b : ℕ × ℚ => a.2 ≤ b.2) (maintain_sorted_entities_x xs) :=
  ⟨maintain_perm xs, maintain_pairwise xs⟩

/-- C9: while unpaused the Integrator maps every body to
`position + velocity * elapsed_seconds` with the one frame-supplied elapsed
time, leaving velocity and mass unchanged and preserving the body count. -/
theorem claim_c9_integrator (rest : List Bool) (dt : ℚ) (bs : List Body) (i : ℕ)
    (h : i < bs.length) :
    (update_from_velocity (false :: rest) dt bs).map List.length = some bs.length
  ∧ (update_from_velocity (false :: rest) dt bs).bind (fun l => l[i]?)
      = some { pos := bs[i].pos + mulScalar bs[i].vel dt, vel := bs[i].vel, mass := bs[i].mass } := by
  have hu : update_from_velocity (false :: rest) dt bs
      = some (bs.map fun b => { b with pos := b.pos + mulScalar b.vel dt }) := rfl
  constructor
  · rw [hu]
    simp
  · rw [hu, Option.some_bind, List.getElem?_map, List.getElem?_eq_getElem h]
    rfl

/-- C9 witness: the integrator on a concrete one-body world with elapsed
time 2. -/
theorem claim_c9_integrator_witness :
    (0 : ℕ) < ([⟨(1,2,3),(4,5,6),7⟩] : List Body).length
  ∧ (update_from_velocity [false] 2 [⟨(1,2,3),(4,5,6),7⟩]).bind (fun l => l[0]?)
      = some ⟨(1,2,3) + mulScalar (4,5,6) 2, (4,5,6), 7⟩
  ∧ ((1:ℚ),(2:ℚ),(3:ℚ)) + mulScalar (4,5,6) 2 = ((9:ℚ),(12:ℚ),(15:ℚ)) := by
  refine ⟨by decide, (claim_c9_integrator [] 2 _ 0 (by decide)).2, ?_⟩
  norm_num [mulScalar, vx, vy, vz, Prod.ext_iff]

/-- C10 counterexample: with no Pause entity present, the pause toggle
handler does not panic on a frame without a toggle key edge — the unwrap
sits inside the just-pressed branch. -/
theorem claim_c10_counterexample : ¬ (∀ jp : Bool, pause_game jp [] = none) := by
  intro h
  simpa [pause_game] using h false

/-- C10 (amended): with at least one Pause component every per-frame reader
of the pause flag is total (the unwrap failure branch is unreachable); with
none, the Collision System, Gravity System and Integrator panic whenever
they run, while the pause toggle handler panics exactly on runs where the
toggle key was just pressed. -/
theorem claim_c10_pause_unwrap (sqrt : ℚ → ℚ) (dt : ℚ) (bs : List Body)
    (p : Bool) (rest : List Bool) (jp : Bool) :
    (update_from_gravity sqrt (p :: rest) bs).isSome = true
  ∧ (handle_collision sqrt (p :: rest) bs).isSome = true
  ∧ (update_from_velocity (p :: rest) dt bs).isSome = true
  ∧ (pause_game jp (p :: rest)).isSome = true
  ∧ update_from_gravity sqrt [] bs = none
  ∧ handle_collision sqrt [] bs = none
  ∧ update_from_velocity [] dt bs = none
  ∧ pause_game true [] = none
  ∧ pause_game false [] = some [] := by
  refine ⟨?_, ?_, ?_, ?_, rfl, rfl, rfl, rfl, rfl⟩ <;> cases p <;> cases jp <;> rfl

/-- C2: while unpaused the Collision System is the fold of the per-pair
step over all unordered index pairs; whenever the squared Euclidean
distance between the two positions is below `100` (equivalently, for the
IEEE square root, `Vec3::distance < 10`), the step negates every component
of both velocities and touches nothing else; at squared distance `100` or
more the step changes nothing. -/
theorem claim_c2_collision_threshold (sqrt : ℚ → ℚ) (hs : SqrtThreshold10 sqrt)
    (rest : List Bool) (bs : List Body) :
    handle_collision sqrt (false :: rest) bs
        = some ((pairs bs.length).foldl (fun s q => collidePair sqrt s q.1 q.2) bs)
      ∧ ∀ (s : List Body) (i j : ℕ) (a b : Body),
          i ≠ j → s[i]? = some a → s[j]? = some b →
          (lengthSq (a.pos - b.pos) < 100 →
              (collidePair sqrt s i j)[i]?
                  = some { a with vel := (-(vx a.vel), -(vy a.vel), -(vz a.vel)) }
            ∧ (collidePair sqrt s i j)[j]?
                  = some { b with vel := (-(vx b.vel), -(vy b.vel), -(vz b.vel)) }
            ∧ (∀ k : ℕ, k ≠ i → k ≠ j → (collidePair sqrt s i j)[k]? = s[k]?))
          ∧ (100 ≤ lengthSq (a.pos - b.pos) → collidePair sqrt s i j = s) := by
  refine ⟨rfl, ?_⟩
  intro s i j a b hij hi hj
  obtain ⟨hi2, hia⟩ := List.getElem?_eq_some.1 hi
  obtain ⟨hj2, hjb⟩ := List.getElem?_eq_some.1 hj
  have hcond : dist sqrt a.pos b.pos < 10 ↔ lengthSq (a.pos - b.pos) < 100 :=
    hs _ (lengthSq_nonneg _)
  constructor
  · intro hlt
    have hd : dist sqrt a.pos b.pos < 10 := hcond.2 hlt
    have hred : collidePair sqrt s i j
        = (s.set i { a with vel := -a.vel }).set j { b with vel := -b.vel } := by
      unfold collidePair
      rw [hi, hj]
      exact if_pos hd
    refine ⟨?_, ?_, ?_⟩
    · rw [hred]
      simp only [List.getElem?_set, if_neg (Ne.symm hij), if_pos rfl, if_pos hi2]
      rfl
    · rw [hred]
      have hj3 : j < (s.set i { a with vel := -a.vel }).length := by simpa using hj2
      simp only [List.getElem?_set, if_pos rfl, if_pos hj3]
      rfl
    · intro k hki hkj
      rw [hred]
      simp only [List.getElem?_set, if_neg (Ne.symm hkj), if_neg (Ne.symm hki)]
  · intro hge
    have hd : ¬ dist sqrt a.pos b.pos < 10 := by
      rw [hcond]
      exact not_lt.2 hge
    have hred : collidePair sqrt s i j = s := by
      unfold collidePair
      rw [hi, hj]
      exact if_neg hd
    exact hred

/-- C2 witness: a concrete pair at distance 5 (squared distance 25), with a
square-root routine satisfying the threshold interface. -/
theorem claim_c2_collision_threshold_witness :
    SqrtThreshold10 (fun q => if q < 100 then (0 : ℚ) else 10)
  ∧ lengthSq ((((0 : ℚ), (0 : ℚ), (0 : ℚ)) : Vec3) - ((5 : ℚ), 0, 0)) < 100
  ∧ (collidePair (fun q => if q < 100 then (0 : ℚ) else 10)
        [⟨(0,0,0),(1,2,3),5⟩, ⟨(5,0,0),(4,5,6),7⟩] 0 1)[0]?
      = some ⟨(0,0,0), (-1,-2,-3), 5⟩ := by
  have hs : SqrtThreshold10 (fun q => if q < 100 then (0 : ℚ) else 10) := by
    intro q hq
    by_cases h : q < 100
    · show (if q < 100 then (0 : ℚ) else 10) < 10 ↔ q < 100
      rw [if_pos h]
      exact iff_of_true (by norm_num) h
    · show (if q < 100 then (0 : ℚ) else 10) < 10 ↔ q < 100
      rw [if_neg h]
      exact iff_of_false (lt_irrefl _) h
  have h25 : lengthSq ((((0 : ℚ), (0 : ℚ), (0 : ℚ)) : Vec3) - ((5 : ℚ), 0, 0)) < 100 := by
    norm_num [lengthSq, vx, vy, vz, Prod.fst_sub, Prod.snd_sub]
  refine ⟨hs, h25, ?_⟩
  exact (((claim_c2_collision_threshold _ hs [] []).2
      [⟨(0,0,0),(1,2,3),5⟩, ⟨(5,0,0),(4,5,6),7⟩] 0 1 _ _ (by decide) rfl rfl).1 h25).1

/-- C4: evaluation of `setup` — it spawns exactly 20 circle entities whose
translations step by 100 along the x axis, one Pause initialized to false,
and the two axis indexes seeded with each entity's initial x and y
coordinate; but it attaches no Velocity and no Mass component to any of
them (the claimed zero velocity and mass 10 are never inserted). -/
theorem claim_c4_setup_state :
    setupBodies.length = 20
  ∧ (∀ i : ℕ, (setupBodies[i]?).map SpawnedBody.translation
        = if i < 20 then some (((100 * (i : ℚ), 0, 0)) : Vec3) else none)
  ∧ (∀ b ∈ setupBodies, b.velocity = none ∧ b.mass = none)
  ∧ setupPauses = [false]
  ∧ setupXItems = setupBodies.map (fun b => (b.id, vx b.translation))
  ∧ setupYItems = setupBodies.map (fun b => (b.id, vy b.translation)) := by
  refine ⟨by simp [setupBodies], ?_, ?_, rfl, ?_, ?_⟩
  · intro i
    by_cases h : i < 20
    · rw [if_pos h]
      unfold setupBodies
      rw [List.getElem?_map, List.getElem?_range h]
      rfl
    · rw [if_neg h]
      unfold setupBodies
      rw [List.getElem?_eq_none (by simpa using not_lt.1 h)]
      rfl
  · intro b hb
    simp only [setupBodies, List.mem_map] at hb
    obtain ⟨i, _, rfl⟩ := hb
    exact ⟨rfl, rfl⟩
  · unfold setupXItems setupBodies
    rw [List.map_map]
    rfl
  · unfold setupYItems setupBodies
    rw [List.map_map]
    rfl

/-- C5 counterexample: two bodies with positive masses 1 and 2 at distinct
positions at distance exactly 10 (so the frame triggers no collision),
unpaused; the Gravity System changes total momentum from 0 to
(-1/50, 0, 0), far beyond any rounding tolerance, because it applies
equal-and-opposite velocity (not momentum) deltas.  The square-root routine
is exact at the one point used, as `f32` sqrt is (sqrt 100 = 10). -/
theorem claim_c5_counterexample :
    (∀ b ∈ ([⟨(0,0,0),(0,0,0),1⟩, ⟨(10,0,0),(0,0,0),2⟩] : List Body), 0 < b.mass)
  ∧ (([⟨(0,0,0),(0,0,0),1⟩, ⟨(10,0,0),(0,0,0),2⟩] : List Body).map Body.pos).Nodup
  ∧ handle_collision (fun q => if q = (100 : ℚ) then (10 : ℚ) else 0) [false]
        [⟨(0,0,0),(0,0,0),1⟩, ⟨(10,0,0),(0,0,0),2⟩]
      = some [⟨(0,0,0),(0,0,0),1⟩, ⟨(10,0,0),(0,0,0),2⟩]
  ∧ update_from_gravity (fun q => if q = (100 : ℚ) then (10 : ℚ) else 0) [false]
        [⟨(0,0,0),(0,0,0),1⟩, ⟨(10,0,0),(0,0,0),2⟩]
      = some [⟨(0,0,0),(1/50,0,0),1⟩, ⟨(10,0,0),(-(1/50),0,0),2⟩]
  ∧ momentum [⟨(0,0,0),(0,0,0),1⟩, ⟨(10,0,0),(0,0,0),2⟩] = ((0 : ℚ), 0, 0)
  ∧ momentum [⟨(0,0,0),(1/50,0,0),1⟩, ⟨(10,0,0),(-(1/50),0,0),2⟩] ≠ ((0 : ℚ), 0, 0) := by
  have hp2 : pairs 2 = [(0, 1)] := by decide
  have hd10 : dist (fun q => if q = (100 : ℚ) then (10 : ℚ) else 0)
      (((0 : ℚ), (0 : ℚ), (0 : ℚ)) : Vec3) (((10 : ℚ), (0 : ℚ), (0 : ℚ)) : Vec3) = 10 := by
    norm_num [dist, length, lengthSq, vx, vy, vz, Prod.fst_sub, Prod.snd_sub]
  have hf : calculate_new_velocity (fun q => if q = (100 : ℚ) then (10 : ℚ) else 0) 1 2
      (((0 : ℚ), (0 : ℚ), (0 : ℚ)) : Vec3) (((10 : ℚ), (0 : ℚ), (0 : ℚ)) : Vec3)
      = ((1/50 : ℚ), 0, 0) := by
    norm_num [calculate_new_velocity, normalize, length, lengthSq, mulScalar,
      vx, vy, vz, Prod.fst_sub, Prod.snd_sub, Prod.ext_iff]
  refine ⟨by decide, by decide, ?_, ?_, ?_, ?_⟩
  · have h0 : handle_collision (fun q => if q = (100 : ℚ) then (10 : ℚ) else 0) [false]
        [⟨(0,0,0),(0,0,0),1⟩, ⟨(10,0,0),(0,0,0),2⟩]
        = some ((pairs 2).foldl
            (fun s q => collidePair (fun q => if q = (100 : ℚ) then (10 : ℚ) else 0) s q.1 q.2)
            [⟨(0,0,0),(0,0,0),1⟩, ⟨(10,0,0),(0,0,0),2⟩]) := rfl
    rw [h0, hp2, List.foldl_cons, List.foldl_nil]
    have h1 : collidePair (fun q => if q = (100 : ℚ) then (10 : ℚ) else 0)
        [⟨(0,0,0),(0,0,0),1⟩, ⟨(10,0,0),(0,0,0),2⟩] 0 1
        = [⟨(0,0,0),(0,0,0),1⟩, ⟨(10,0,0),(0,0,0),2⟩] := by
      unfold collidePair
      show (if dist (fun q => if q = (100 : ℚ) then (10 : ℚ) else 0)
          (((0 : ℚ), (0 : ℚ), (0 : ℚ)) : Vec3) (((10 : ℚ), (0 : ℚ), (0 : ℚ)) : Vec3) < 10
        then _ else _) = _
      rw [if_neg (by rw [hd10]; exact lt_irrefl 10)]
    rw [h1]
  · have h0 : update_from_gravity (fun q => if q = (100 : ℚ) then (10 : ℚ) else 0) [false]
        [⟨(0,0,0),(0,0,0),1⟩, ⟨(10,0,0),(0,0,0),2⟩]
        = some ((pairs 2).foldl
            (fun s q => gravPair (fun q => if q = (100 : ℚ) then (10 : ℚ) else 0) s q.1 q.2)
            [⟨(0,0,0),(0,0,0),1⟩, ⟨(10,0,0),(0,0,0),2⟩]) := rfl
    rw [h0, hp2, List.foldl_cons, List.foldl_nil]
    have h1 : gravPair (fun q => if q = (100 : ℚ) then (10 : ℚ) else 0)
        [⟨(0,0,0),(0,0,0),1⟩, ⟨(10,0,0),(0,0,0),2⟩] 0 1
        = [⟨(0,0,0),
              ((0 : ℚ), (0 : ℚ), (0 : ℚ)) + calculate_new_velocity
                (fun q => if q = (100 : ℚ) then (10 : ℚ) else 0) 1 2 (0,0,0) (10,0,0), 1⟩,
           ⟨(10,0,0),
              ((0 : ℚ), (0 : ℚ), (0 : ℚ)) - calculate_new_velocity
                (fun q => if q = (100 : ℚ) then (10 : ℚ) else 0) 1 2 (0,0,0) (10,0,0), 2⟩] := rfl
    rw [h1, hf]
    norm_num [Prod.ext_iff, Prod.mk_add_mk, Prod.mk_sub_mk]
  · norm_num [momentum, mulScalar, vx, vy, vz, Prod.ext_iff, Prod.mk_add_mk]
  · norm_num [momentum, mulScalar, vx, vy, vz, Prod.ext_iff, Prod.mk_add_mk]

/-- C5 (amended): while unpaused the Gravity System conserves the
unweighted sum of all velocity vectors exactly (each pair's deltas cancel);
mass-weighted momentum is therefore conserved only when all masses agree. -/
theorem claim_c5_velocity_sum_conserved (sqrt : ℚ → ℚ) (rest : List Bool) (bs bsA : List Body)
    (h : update_from_gravity sqrt (false :: rest) bs = some bsA) :
    velSum bsA = velSum bs := by
  have h2 : update_from_gravity sqrt (false :: rest) bs
      = some ((pairs bs.length).foldl (fun s q => gravPair sqrt s q.1 q.2) bs) := rfl
  injection (h2.symm.trans h) with hEq
  rw [← hEq]
  exact velSum_foldl_gravPair sqrt _ bs fun p hp => Nat.ne_of_lt (pairs_fst_lt_snd p hp)

/-- C5 witness: the conservation theorem applied to a concrete unpaused
two-body frame. -/
theorem claim_c5_velocity_sum_conserved_witness :
    update_from_gravity (fun _ => (1 : ℚ)) [false]
        [⟨(0,0,0),(0,0,0),1⟩, ⟨(1,0,0),(0,0,0),2⟩]
      = some [⟨(0,0,0),(2,0,0),1⟩, ⟨(1,0,0),(-2,0,0),2⟩]
  ∧ velSum [⟨(0,0,0),(2,0,0),1⟩, ⟨(1,0,0),(-2,0,0),2⟩]
      = velSum [⟨(0,0,0),(0,0,0),1⟩, ⟨(1,0,0),(0,0,0),2⟩] := by
  have hp2 : pairs 2 = [(0, 1)] := by decide
  have hf : calculate_new_velocity (fun _ => (1 : ℚ)) 1 2
      (((0 : ℚ), (0 : ℚ), (0 : ℚ)) : Vec3) (((1 : ℚ), (0 : ℚ), (0 : ℚ)) : Vec3)
      = ((2 : ℚ), 0, 0) := by
    norm_num [calculate_new_velocity, normalize, length, lengthSq, mulScalar,
      vx, vy, vz, Prod.fst_sub, Prod.snd_sub, Prod.ext_iff]
  have h : update_from_gravity (fun _ => (1 : ℚ)) [false]
      [⟨(0,0,0),(0,0,0),1⟩, ⟨(1,0,0),(0,0,0),2⟩]
      = some [⟨(0,0,0),(2,0,0),1⟩, ⟨(1,0,0),(-2,0,0),2⟩] := by
    have h0 : update_from_gravity (fun _ => (1 : ℚ)) [false]
        [⟨(0,0,0),(0,0,0),1⟩, ⟨(1,0,0),(0,0,0),2⟩]
        = some ((pairs 2).foldl
            (fun s q => gravPair (fun _ => (1 : ℚ)) s q.1 q.2)
            [⟨(0,0,0),(0,0,0),1⟩, ⟨(1,0,0),(0,0,0),2⟩]) := rfl
    rw [h0, hp2, List.foldl_cons, List.foldl_nil]
    have h1 : gravPair (fun _ => (1 : ℚ)) [⟨(0,0,0),(0,0,0),1⟩, ⟨(1,0,0),(0,0,0),2⟩] 0 1
        = [⟨(0,0,0),
              ((0 : ℚ), (0 : ℚ), (0 : ℚ)) + calculate_new_velocity (fun _ => (1 : ℚ)) 1 2
                (0,0,0) (1,0,0), 1⟩,
           ⟨(1,0,0),
              ((0 : ℚ), (0 : ℚ), (0 : ℚ)) - calculate_new_velocity (fun _ => (1 : ℚ)) 1 2
                (0,0,0) (1,0,0), 2⟩] := rfl
    rw [h1, hf]
    norm_num [Prod.ext_iff, Prod.mk_add_mk, Prod.mk_sub_mk]
  exact ⟨h, claim_c5_velocity_sum_conserved _ [] _ _ h⟩

/-- C8: after the maintainer runs, adjacent stored coordinates are
nondecreasing; and given that the stored handles enumerate the body handles
(one entry per body), the output length equals the body count and every
handle still appears exactly once. -/
theorem claim_c8_sorted_index (xs : List (ℕ × ℚ)) (handles : List ℕ)
    (hperm : (xs.map Prod.fst).Perm handles) (hnd : handles.Nodup) :
    (∀ i : ℕ, ∀ h : i + 1 < (maintain_sorted_entities_x xs).length,
        ((maintain_sorted_entities_x xs).get ⟨i, Nat.lt_of_succ_lt h⟩).2
          ≤ ((maintain_sorted_entities_x xs).get ⟨i + 1, h⟩).2)
  ∧ (maintain_sorted_entities_x xs).length = handles.length
  ∧ ∀ e ∈ handles, ((maintain_sorted_entities_x xs).map Prod.fst).count e = 1 := by
  refine ⟨?_, ?_, ?_⟩
  · intro i h
    have hp := maintain_pairwise xs
    rw [List.pairwise_iff_getElem] at hp
    exact hp i (i + 1) (Nat.lt_of_succ_lt h) h (Nat.lt_succ_self i)
  · rw [(maintain_perm xs).length_eq]
    have hl := hperm.length_eq
    simpa using hl
  · intro e he
    have hcount : ((maintain_sorted_entities_x xs).map Prod.fst).count e
        = (xs.map Prod.fst).count e := ((maintain_perm xs).map Prod.fst).count_eq e
    rw [hcount, hperm.count_eq e]
    exact List.count_eq_one_of_mem hnd he

/-- C8 witness: the sorted-index invariants on a concrete two-entry index. -/
theorem claim_c8_sorted_index_witness :
    ((([((1 : ℕ), (3 : ℚ)), (0, 5)] : List (ℕ × ℚ)).map Prod.fst).Perm [0, 1])
  ∧ ([0, 1] : List ℕ).Nodup
  ∧ (maintain_sorted_entities_x [((1 : ℕ), (3 : ℚ)), (0, 5)]).length
      = ([0, 1] : List ℕ).length := by
  have h1 : (([((1 : ℕ), (3 : ℚ)), (0, 5)] : List (ℕ × ℚ)).map Prod.fst).Perm [0, 1] := by
    have hm : ([((1 : ℕ), (3 : ℚ)), (0, 5)] : List (ℕ × ℚ)).map Prod.fst = [1, 0] := rfl
    rw [hm]
    decide
  have h2 : ([0, 1] : List ℕ).Nodup := by decide
  exact ⟨h1, h2, (claim_c8_sorted_index _ _ h1 h2).2.1⟩

end BevyFun
